import Mathlib

/-!
# Verification of the tinyland-metrics core

A shallow embedding of the in-memory metrics collector
(`src/metrics-collector.ts`) and the SSE event-stream manager
(`src/event-stream.ts`), together with theorems settling the stated
behavioural claims.

Modelling conventions:
* JavaScript `Map` objects are association lists `List (String × β)`
  in insertion order; `Map.get` is `mapGet`, `Map.set` is `mapSet`
  (update in place if the key exists, append otherwise), matching the
  ECMAScript semantics of insertion-ordered maps.
* JavaScript `Set<string>` objects are duplicate-free `List String`
  in insertion order; `Set.add` is `setAdd` (append if absent).
* `Date` values and `Date.now()` are epoch-millisecond integers (`Int`);
  mutators take the current time `now` as an explicit argument.
* Optional parameters (`userId?`, ...) are `Option String`.
* Fractional arithmetic (percentages, bounce rate) is modelled over `ℚ`;
  `Math.round` is `jsRound` (round half toward positive infinity) and
  `Math.floor` is `Int.floor`.
-/

/-- `Map.get` on an insertion-ordered association list. -/
def mapGet {β : Type} (m : List (String × β)) (k : String) : Option β :=
  match m.find? (fun p => p.1 == k) with
  | some p => some p.2
  | none => none

/-- `Map.set` on an insertion-ordered association list: replaces the value
in place when the key is present, appends a fresh entry otherwise. -/
def mapSet {β : Type} (m : List (String × β)) (k : String) (v : β) :
    List (String × β) :=
  match m with
  | [] => [(k, v)]
  | (k', v') :: rest =>
      if k' = k then (k, v) :: rest else (k', v') :: mapSet rest k v

/-- `Set.add` on an insertion-ordered duplicate-free list. -/
def setAdd (s : List String) (x : String) : List String :=
  if x ∈ s then s else s ++ [x]

/-- `PageMetrics` record (`src/types.ts`): per-path view statistics. -/
structure PageMetrics where
  path : String
  views : Nat
  uniqueVisitors : List String
  lastAccessed : Int
  deriving Repr, DecidableEq

/-- `SessionMetrics` record (`src/types.ts`): per-session statistics. -/
structure SessionMetrics where
  sessionId : String
  userId : Option String
  startTime : Int
  lastActivity : Int
  pageViews : Nat
  pages : List String
  referrer : Option String
  userAgent : Option String
  deriving Repr, DecidableEq

/-- The mutable state owned by a `MetricsCollector` instance. -/
structure CollectorState where
  pageMetrics : List (String × PageMetrics)
  sessionMetrics : List (String × SessionMetrics)
  requestCount : Nat
  errorCount : Nat
  deriving Repr, DecidableEq

/-- The state of a freshly constructed collector (before any load). -/
def emptyCollector : CollectorState :=
  { pageMetrics := [], sessionMetrics := [], requestCount := 0, errorCount := 0 }

/-- `MetricsCollector.trackPageView`: create/update the page record for
`path`, create/update the session record for `sessionId`, and increment
the request counter. -/
def trackPageView (st : CollectorState) (sessionId path : String)
    (userId referrer userAgent : Option String) (now : Int) : CollectorState :=
  let pageData :=
    match mapGet st.pageMetrics path with
    | some p => p
    | none =>
        { path := path, views := 0, uniqueVisitors := [], lastAccessed := now }
  let pageData' :=
    { pageData with
        views := pageData.views + 1
        uniqueVisitors := setAdd pageData.uniqueVisitors sessionId
        lastAccessed := now }
  let session :=
    match mapGet st.sessionMetrics sessionId with
    | some s => s
    | none =>
        { sessionId := sessionId, userId := userId, startTime := now,
          lastActivity := now, pageViews := 0, pages := [],
          referrer := referrer, userAgent := userAgent }
  let session' :=
    { session with
        lastActivity := now
        pageViews := session.pageViews + 1
        pages :=
          if path ∈ session.pages then session.pages
          else session.pages ++ [path] }
  { pageMetrics := mapSet st.pageMetrics path pageData'
    sessionMetrics := mapSet st.sessionMetrics sessionId session'
    requestCount := st.requestCount + 1
    errorCount := st.errorCount }

/-- `MetricsCollector.trackError`: increments the error counter only. -/
def trackError (st : CollectorState) : CollectorState :=
  { st with errorCount := st.errorCount + 1 }

/-- `MetricsCollector.getSessionMetrics`: `none` models both a `null`
argument and a `null` result.  The source guard `if (!sessionId)` is
JavaScript truthiness, so the empty string is also rejected. -/
def getSessionMetrics (st : CollectorState) (sessionId : Option String) :
    Option SessionMetrics :=
  match sessionId with
  | none => none
  | some sid => if sid = "" then none else mapGet st.sessionMetrics sid

/-- `MetricsCollector.cleanupOldSessions`: delete every session whose
`lastActivity` is strictly older than 24 hours before `now`. -/
def cleanupOldSessions (st : CollectorState) (now : Int) : CollectorState :=
  { st with
      sessionMetrics :=
        st.sessionMetrics.filter
          (fun p => !(p.2.lastActivity < now - 24 * 60 * 60 * 1000)) }

-- Projections used to state the tracking claims.

/-- View count of the page record at `path` (0 when absent). -/
def viewsAt (st : CollectorState) (path : String) : Nat :=
  match mapGet st.pageMetrics path with
  | some r => r.views
  | none => 0

/-- Unique-visitor set of the page record at `path` ([] when absent). -/
def visitorsAt (st : CollectorState) (path : String) : List String :=
  match mapGet st.pageMetrics path with
  | some r => r.uniqueVisitors
  | none => []

/-- Last-access timestamp of the page record at `path` (`none` when absent). -/
def lastAccessAt (st : CollectorState) (path : String) : Option Int :=
  match mapGet st.pageMetrics path with
  | some r => some r.lastAccessed
  | none => none

/-- Page-view counter of the session record for `sid` (0 when absent). -/
def sessionViewsAt (st : CollectorState) (sid : String) : Nat :=
  match mapGet st.sessionMetrics sid with
  | some s => s.pageViews
  | none => 0

/-- Visited-pages list of the session record for `sid` ([] when absent). -/
def sessionPagesAt (st : CollectorState) (sid : String) : List String :=
  match mapGet st.sessionMetrics sid with
  | some s => s.pages
  | none => []

-- Basic lemmas about the map and set models.

theorem mapGet_nil {β : Type} (k : String) :
    mapGet ([] : List (String × β)) k = none := rfl

theorem mapGet_cons {β : Type} (a : String × β) (m : List (String × β))
    (k : String) :
    mapGet (a :: m) k = if a.1 = k then some a.2 else mapGet m k := by
  by_cases h : a.1 = k
  · simp [mapGet, List.find?_cons, h]
  · simp [mapGet, List.find?_cons, h]

theorem mapGet_mapSet_self {β : Type} (m : List (String × β)) (k : String)
    (v : β) : mapGet (mapSet m k v) k = some v := by
  induction m with
  | nil => simp [mapSet, mapGet_cons, mapGet_nil]
  | cons hd tl ih =>
      by_cases h : hd.1 = k
      · simp [mapSet, h, mapGet_cons]
      · simpa [mapSet, h, mapGet_cons] using ih

theorem mapGet_mapSet_ne {β : Type} (m : List (String × β)) (k k' : String)
    (v : β) (h : k' ≠ k) : mapGet (mapSet m k v) k' = mapGet m k' := by
  induction m with
  | nil => simp [mapSet, mapGet_cons, mapGet_nil, Ne.symm h]
  | cons hd tl ih =>
      by_cases hk : hd.1 = k
      · subst hk
        simp [mapSet, mapGet_cons, Ne.symm h, h]
      · by_cases hk' : hd.1 = k'
        · simp [mapSet, hk, mapGet_cons, hk', h]
        · simpa [mapSet, hk, mapGet_cons, hk'] using ih

theorem mem_setAdd (s : List String) (x y : String) :
    y ∈ setAdd s x ↔ y = x ∨ y ∈ s := by
  by_cases h : x ∈ s
  · simp only [setAdd, if_pos h]
    constructor
    · exact fun hy => Or.inr hy
    · rintro (rfl | hy)
      · exact h
      · exact hy
  · simp [setAdd, if_neg h, or_comm]

theorem setAdd_length_le (s : List String) (x : String) :
    (setAdd s x).length ≤ s.length + 1 := by
  by_cases h : x ∈ s
  · simp [setAdd, h]
  · simp [setAdd, h]

theorem setAdd_length_of_not_mem (s : List String) (x : String)
    (h : x ∉ s) : (setAdd s x).length = s.length + 1 := by
  simp [setAdd, h]

-- Effect lemmas for trackPageView.

theorem viewsAt_trackPageView_self (st : CollectorState) (sid p : String)
    (u r ua : Option String) (now : Int) :
    viewsAt (trackPageView st sid p u r ua now) p = viewsAt st p + 1 := by
  unfold viewsAt trackPageView
  simp only [mapGet_mapSet_self]
  cases mapGet st.pageMetrics p <;> simp

theorem viewsAt_trackPageView_other (st : CollectorState) (sid p q : String)
    (u r ua : Option String) (now : Int) (h : q ≠ p) :
    viewsAt (trackPageView st sid p u r ua now) q = viewsAt st q := by
  unfold viewsAt trackPageView
  simp only [mapGet_mapSet_ne _ _ _ _ h]

theorem visitorsAt_trackPageView_self (st : CollectorState) (sid p : String)
    (u r ua : Option String) (now : Int) :
    visitorsAt (trackPageView st sid p u r ua now) p
      = setAdd (visitorsAt st p) sid := by
  unfold visitorsAt trackPageView
  simp only [mapGet_mapSet_self]
  cases mapGet st.pageMetrics p <;> simp

theorem visitorsAt_trackPageView_other (st : CollectorState) (sid p q : String)
    (u r ua : Option String) (now : Int) (h : q ≠ p) :
    visitorsAt (trackPageView st sid p u r ua now) q = visitorsAt st q := by
  unfold visitorsAt trackPageView
  simp only [mapGet_mapSet_ne _ _ _ _ h]

theorem lastAccessAt_trackPageView_self (st : CollectorState) (sid p : String)
    (u r ua : Option String) (now : Int) :
    lastAccessAt (trackPageView st sid p u r ua now) p = some now := by
  unfold lastAccessAt trackPageView
  simp only [mapGet_mapSet_self]

theorem sessionGet_trackPageView_existing (st : CollectorState)
    (sid p : String) (u r ua : Option String) (now : Int) (s : SessionMetrics)
    (h : mapGet st.sessionMetrics sid = some s) :
    mapGet (trackPageView st sid p u r ua now).sessionMetrics sid
      = some { s with
                 lastActivity := now
                 pageViews := s.pageViews + 1
                 pages := if p ∈ s.pages then s.pages else s.pages ++ [p] } := by
  unfold trackPageView
  simp only [h, mapGet_mapSet_self]

theorem sessionGet_trackPageView_fresh (st : CollectorState)
    (sid p : String) (u r ua : Option String) (now : Int)
    (h : mapGet st.sessionMetrics sid = none) :
    mapGet (trackPageView st sid p u r ua now).sessionMetrics sid
      = some { sessionId := sid, userId := u, startTime := now,
               lastActivity := now, pageViews := 1, pages := [p],
               referrer := r, userAgent := ua } := by
  unfold trackPageView
  simp only [h, mapGet_mapSet_self]
  simp

theorem sessionViewsAt_trackPageView_self (st : CollectorState)
    (sid p : String) (u r ua : Option String) (now : Int) :
    sessionViewsAt (trackPageView st sid p u r ua now) sid
      = sessionViewsAt st sid + 1 := by
  unfold sessionViewsAt
  cases h : mapGet st.sessionMetrics sid with
  | some s => simp [sessionGet_trackPageView_existing st sid p u r ua now s h]
  | none => simp [sessionGet_trackPageView_fresh st sid p u r ua now h]

theorem sessionPagesAt_trackPageView_self (st : CollectorState)
    (sid p : String) (u r ua : Option String) (now : Int) :
    sessionPagesAt (trackPageView st sid p u r ua now) sid
      = (if p ∈ sessionPagesAt st sid then sessionPagesAt st sid
         else sessionPagesAt st sid ++ [p]) := by
  unfold sessionPagesAt
  cases h : mapGet st.sessionMetrics sid with
  | some s => simp [sessionGet_trackPageView_existing st sid p u r ua now s h]
  | none => simp [sessionGet_trackPageView_fresh st sid p u r ua now h]

/-- **C1.** `trackPageView(sessionId, path, ...)` increments the page's view
count by exactly 1, adds `sessionId` to its visitor set, refreshes its
last-access timestamp (creating the record if absent), increments the
session's page-view counter by exactly 1, appends `path` to the session's
visited-pages list iff it is not already there, creates the session record
with the given optional fields when absent, and increments the global
request counter by exactly 1 (the error counter is untouched); being a
total function of the state, the call never fails. -/
theorem trackPageView_spec (st : CollectorState) (sid p : String)
    (u r ua : Option String) (now : Int) :
    viewsAt (trackPageView st sid p u r ua now) p = viewsAt st p + 1 ∧
    (∀ x, x ∈ visitorsAt (trackPageView st sid p u r ua now) p
        ↔ x = sid ∨ x ∈ visitorsAt st p) ∧
    lastAccessAt (trackPageView st sid p u r ua now) p = some now ∧
    sessionViewsAt (trackPageView st sid p u r ua now) sid
      = sessionViewsAt st sid + 1 ∧
    sessionPagesAt (trackPageView st sid p u r ua now) sid
      = (if p ∈ sessionPagesAt st sid then sessionPagesAt st sid
         else sessionPagesAt st sid ++ [p]) ∧
    (mapGet st.sessionMetrics sid = none →
      mapGet (trackPageView st sid p u r ua now).sessionMetrics sid
        = some { sessionId := sid, userId := u, startTime := now,
                 lastActivity := now, pageViews := 1, pages := [p],
                 referrer := r, userAgent := ua }) ∧
    (trackPageView st sid p u r ua now).requestCount = st.requestCount + 1 ∧
    (trackPageView st sid p u r ua now).errorCount = st.errorCount := by
  refine ⟨viewsAt_trackPageView_self st sid p u r ua now, ?_,
    lastAccessAt_trackPageView_self st sid p u r ua now,
    sessionViewsAt_trackPageView_self st sid p u r ua now,
    sessionPagesAt_trackPageView_self st sid p u r ua now,
    fun h => sessionGet_trackPageView_fresh st sid p u r ua now h, rfl, rfl⟩
  intro x
  rw [visitorsAt_trackPageView_self st sid p u r ua now]
  exact mem_setAdd (visitorsAt st p) sid x

-- Operation sequences (for the reachable-state invariants).

/-- A tracking call issued against the collector. -/
inductive TrackOp
  | view (sessionId path : String) (userId referrer userAgent : Option String)
      (now : Int)
  | error
  deriving Repr, DecidableEq

/-- Apply one tracking call to the state. -/
def stepOp (st : CollectorState) : TrackOp → CollectorState
  | TrackOp.view sid p u r ua now => trackPageView st sid p u r ua now
  | TrackOp.error => trackError st

/-- Run a sequence of tracking calls starting from the empty collector. -/
def runOps (ops : List TrackOp) : CollectorState :=
  ops.foldl stepOp emptyCollector

/-- Session ids of the `trackPageView` calls whose path is `p`, in order. -/
def sidsFor (p : String) : List TrackOp → List String
  | [] => []
  | TrackOp.view sid path _ _ _ _ :: rest =>
      if path = p then sid :: sidsFor p rest else sidsFor p rest
  | TrackOp.error :: rest => sidsFor p rest

theorem viewsAt_trackError (st : CollectorState) (p : String) :
    viewsAt (trackError st) p = viewsAt st p := rfl

theorem visitorsAt_trackError (st : CollectorState) (p : String) :
    visitorsAt (trackError st) p = visitorsAt st p := rfl

theorem viewsAt_foldl (ops : List TrackOp) (st : CollectorState) (p : String) :
    viewsAt (ops.foldl stepOp st) p = viewsAt st p + (sidsFor p ops).length := by
  induction ops generalizing st with
  | nil => simp [sidsFor]
  | cons op rest ih =>
      cases op with
      | view sid path u r ua now =>
          by_cases h : path = p
          · subst h
            rw [List.foldl_cons, ih, stepOp,
              viewsAt_trackPageView_self st sid path u r ua now]
            simp [sidsFor]
            omega
          · rw [List.foldl_cons, ih, stepOp,
              viewsAt_trackPageView_other st sid path p u r ua now (Ne.symm h)]
            simp [sidsFor, h]
      | error =>
          rw [List.foldl_cons, ih, stepOp, viewsAt_trackError]
          simp [sidsFor]

theorem visitorsAt_foldl (ops : List TrackOp) (st : CollectorState)
    (p : String) :
    visitorsAt (ops.foldl stepOp st) p
      = (sidsFor p ops).foldl setAdd (visitorsAt st p) := by
  induction ops generalizing st with
  | nil => simp [sidsFor]
  | cons op rest ih =>
      cases op with
      | view sid path u r ua now =>
          by_cases h : path = p
          · subst h
            rw [List.foldl_cons, ih, stepOp,
              visitorsAt_trackPageView_self st sid path u r ua now]
            simp [sidsFor]
          · rw [List.foldl_cons, ih, stepOp,
              visitorsAt_trackPageView_other st sid path p u r ua now
                (Ne.symm h)]
            simp [sidsFor, h]
      | error =>
          rw [List.foldl_cons, ih, stepOp, visitorsAt_trackError]
          simp [sidsFor]

theorem mem_foldl_setAdd (l s : List String) (x : String) :
    x ∈ l.foldl setAdd s ↔ x ∈ s ∨ x ∈ l := by
  induction l generalizing s with
  | nil => simp
  | cons y ys ih =>
      rw [List.foldl_cons, ih]
      rw [mem_setAdd]
      simp
      tauto

theorem foldl_setAdd_length_le (l s : List String) :
    (l.foldl setAdd s).length ≤ s.length + l.length := by
  induction l generalizing s with
  | nil => simp
  | cons y ys ih =>
      rw [List.foldl_cons]
      have h1 := ih (setAdd s y)
      have h2 := setAdd_length_le s y
      simp only [List.length_cons]
      omega

theorem foldl_setAdd_length_nodup (l : List String) (s : List String)
    (hn : l.Nodup) (hd : ∀ x ∈ l, x ∉ s) :
    (l.foldl setAdd s).length = s.length + l.length := by
  induction l generalizing s with
  | nil => simp
  | cons y ys ih =>
      have hy : y ∉ s := hd y (by simp)
      have hnodups := List.nodup_cons.mp hn
      rw [List.foldl_cons, ih (setAdd s y) hnodups.2 ?_]
      · rw [setAdd_length_of_not_mem s y hy]
        simp only [List.length_cons]
        omega
      · intro x hx
        rw [mem_setAdd]
        push_neg
        constructor
        · intro hxy
          exact hnodups.1 (hxy ▸ hx)
        · exact hd x (by simp [hx])

-- Structural invariant of the collector state.

/-- The record-level invariants: every page record has no more distinct
visitors than views, and every session record has no more distinct pages
than its page-view counter. -/
def collectorInv (st : CollectorState) : Prop :=
  (∀ p rec, mapGet st.pageMetrics p = some rec →
      rec.uniqueVisitors.length ≤ rec.views) ∧
  (∀ sid s, mapGet st.sessionMetrics sid = some s →
      s.pages.length ≤ s.pageViews)

theorem pageGet_trackPageView_existing (st : CollectorState)
    (sid p : String) (u r ua : Option String) (now : Int) (rec : PageMetrics)
    (h : mapGet st.pageMetrics p = some rec) :
    mapGet (trackPageView st sid p u r ua now).pageMetrics p
      = some { rec with
                 views := rec.views + 1
                 uniqueVisitors := setAdd rec.uniqueVisitors sid
                 lastAccessed := now } := by
  unfold trackPageView
  simp only [h, mapGet_mapSet_self]

theorem pageGet_trackPageView_fresh (st : CollectorState)
    (sid p : String) (u r ua : Option String) (now : Int)
    (h : mapGet st.pageMetrics p = none) :
    mapGet (trackPageView st sid p u r ua now).pageMetrics p
      = some { path := p, views := 1, uniqueVisitors := [sid],
               lastAccessed := now } := by
  unfold trackPageView
  simp only [h, mapGet_mapSet_self]
  simp [setAdd]

theorem collectorInv_step (st : CollectorState) (op : TrackOp)
    (h : collectorInv st) : collectorInv (stepOp st op) := by
  cases op with
  | error => exact ⟨h.1, h.2⟩
  | view sid p u r ua now =>
      constructor
      · intro q rec hq
        by_cases hqp : q = p
        · subst hqp
          cases hold : mapGet st.pageMetrics q with
          | some old =>
              rw [stepOp, pageGet_trackPageView_existing st sid q u r ua now
                old hold] at hq
              cases hq
              have h1 := setAdd_length_le old.uniqueVisitors sid
              have h2 := h.1 q old hold
              simpa using le_trans h1 (by omega)
          | none =>
              rw [stepOp, pageGet_trackPageView_fresh st sid q u r ua now
                hold] at hq
              cases hq
              simp
        · rw [stepOp] at hq
          unfold trackPageView at hq
          rw [mapGet_mapSet_ne _ _ _ _ hqp] at hq
          exact h.1 q rec hq
      · intro tid s hs
        by_cases hts : tid = sid
        · subst hts
          cases hold : mapGet st.sessionMetrics tid with
          | some old =>
              rw [stepOp, sessionGet_trackPageView_existing st tid p u r ua now
                old hold] at hs
              cases hs
              have h2 := h.2 tid old hold
              by_cases hp : p ∈ old.pages
              · simp [hp]
                omega
              · simp [hp]
                omega
          | none =>
              rw [stepOp, sessionGet_trackPageView_fresh st tid p u r ua now
                hold] at hs
              cases hs
              simp
        · rw [stepOp] at hs
          unfold trackPageView at hs
          simp only [mapGet_mapSet_ne _ _ _ _ hts] at hs
          exact h.2 tid s hs

theorem collectorInv_empty : collectorInv emptyCollector := by
  constructor
  · intro p rec h
    simp [emptyCollector, mapGet_nil] at h
  · intro sid s h
    simp [emptyCollector, mapGet_nil] at h

theorem collectorInv_foldl (ops : List TrackOp) (st : CollectorState)
    (h : collectorInv st) : collectorInv (ops.foldl stepOp st) := by
  induction ops generalizing st with
  | nil => exact h
  | cons op rest ih => exact ih (stepOp st op) (collectorInv_step st op h)

/-- **C3.** Starting from the empty state, for every path the view count
equals the number of `trackPageView` calls for that path; the number of
distinct visitors never exceeds the view count, with equality when the
session ids of those calls are pairwise distinct; every session record
satisfies `pageViews ≥ |pages|`; and the record-level invariants are
preserved by every tracking operation. -/
theorem tracking_invariants :
    (∀ ops p, viewsAt (runOps ops) p = (sidsFor p ops).length) ∧
    (∀ ops p, (visitorsAt (runOps ops) p).length ≤ viewsAt (runOps ops) p) ∧
    (∀ ops p, (sidsFor p ops).Nodup →
        (visitorsAt (runOps ops) p).length = viewsAt (runOps ops) p) ∧
    (∀ ops sid s, mapGet (runOps ops).sessionMetrics sid = some s →
        s.pages.length ≤ s.pageViews) ∧
    (∀ st op, collectorInv st → collectorInv (stepOp st op)) := by
  have hviews : ∀ ops p, viewsAt (runOps ops) p = (sidsFor p ops).length := by
    intro ops p
    rw [runOps, viewsAt_foldl]
    simp [viewsAt, emptyCollector, mapGet_nil]
  have hvis : ∀ ops p,
      visitorsAt (runOps ops) p = (sidsFor p ops).foldl setAdd [] := by
    intro ops p
    rw [runOps, visitorsAt_foldl]
    rfl
  refine ⟨hviews, ?_, ?_, ?_, collectorInv_step⟩
  · intro ops p
    rw [hviews, hvis]
    simpa using foldl_setAdd_length_le (sidsFor p ops) []
  · intro ops p hn
    rw [hviews, hvis]
    simpa using foldl_setAdd_length_nodup (sidsFor p ops) [] hn (by simp)
  · intro ops sid s hs
    exact (collectorInv_foldl ops emptyCollector collectorInv_empty).2 sid s hs

/-- Witness for C3: two views of `/home` from distinct sessions give view
count 2 and visitor count 2, and a repeated view from one session keeps
`pageViews ≥ |pages|`. -/
theorem tracking_invariants_witness :
    viewsAt (runOps [TrackOp.view "s1" "/home" none none none 0,
        TrackOp.view "s2" "/home" none none none 1]) "/home"
      = (sidsFor "/home" [TrackOp.view "s1" "/home" none none none 0,
          TrackOp.view "s2" "/home" none none none 1]).length ∧
    (visitorsAt (runOps [TrackOp.view "s1" "/home" none none none 0,
        TrackOp.view "s2" "/home" none none none 1]) "/home").length
      = viewsAt (runOps [TrackOp.view "s1" "/home" none none none 0,
          TrackOp.view "s2" "/home" none none none 1]) "/home" := by
  constructor
  · exact tracking_invariants.1
      [TrackOp.view "s1" "/home" none none none 0,
       TrackOp.view "s2" "/home" none none none 1] "/home"
  · exact tracking_invariants.2.2.1
      [TrackOp.view "s1" "/home" none none none 0,
       TrackOp.view "s2" "/home" none none none 1] "/home" (by decide)

/-- **C10.** When the session record already exists, `trackPageView` keeps
its `userId`, `referrer`, `userAgent` and `startTime` (ignoring the
arguments of the later call); only `lastActivity`, `pageViews` and
possibly the `pages` list change. -/
theorem trackPageView_existing_session_frame (st : CollectorState)
    (sid p : String) (u r ua : Option String) (now : Int) (s : SessionMetrics)
    (h : mapGet st.sessionMetrics sid = some s) :
    ∃ s', mapGet (trackPageView st sid p u r ua now).sessionMetrics sid
        = some s' ∧
      s'.userId = s.userId ∧ s'.referrer = s.referrer ∧
      s'.userAgent = s.userAgent ∧ s'.startTime = s.startTime ∧
      s'.lastActivity = now ∧ s'.pageViews = s.pageViews + 1 ∧
      s'.pages = (if p ∈ s.pages then s.pages else s.pages ++ [p]) :=
  ⟨_, sessionGet_trackPageView_existing st sid p u r ua now s h,
    rfl, rfl, rfl, rfl, rfl, rfl, rfl⟩

/-- Witness for C10: a second view with different optional arguments keeps
the originally stored `userId`, `referrer`, `userAgent` and `startTime`. -/
theorem trackPageView_existing_session_frame_witness :
    ∃ s', mapGet (trackPageView
        (trackPageView emptyCollector "s1" "/a" (some "u1") (some "r1")
          (some "ua1") 0)
        "s1" "/b" (some "u2") (some "r2") (some "ua2") 5).sessionMetrics "s1"
        = some s' ∧
      s'.userId = some "u1" ∧ s'.referrer = some "r1" ∧
      s'.userAgent = some "ua1" ∧ s'.startTime = 0 ∧
      s'.lastActivity = 5 ∧ s'.pageViews = 1 + 1 ∧
      s'.pages = (if "/b" ∈ ["/a"] then ["/a"] else ["/a"] ++ ["/b"]) :=
  trackPageView_existing_session_frame
    (trackPageView emptyCollector "s1" "/a" (some "u1") (some "r1")
      (some "ua1") 0)
    "s1" "/b" (some "u2") (some "r2") (some "ua2") 5
    { sessionId := "s1", userId := some "u1", startTime := 0,
      lastActivity := 0, pageViews := 1, pages := ["/a"],
      referrer := some "r1", userAgent := some "ua1" }
    (by rfl)

/-- **C9 counterexample.** The claim fails at the empty-string id: a call
`trackPageView("", "/home")` creates a session record keyed by `""`, yet
`getSessionMetrics("")` returns `null` because the source guard
`if (!sessionId)` treats the empty string as falsy. -/
theorem getSessionMetrics_empty_id_counterexample :
    mapGet (trackPageView emptyCollector "" "/home" none none none
        0).sessionMetrics ""
      = some { sessionId := "", userId := none, startTime := 0,
               lastActivity := 0, pageViews := 1, pages := ["/home"],
               referrer := none, userAgent := none } ∧
    getSessionMetrics (trackPageView emptyCollector "" "/home" none none none
        0) (some "") = none := by
  constructor
  · rfl
  · rfl

/-- **C9 (amended).** `getSessionMetrics` returns the stored record for
every non-null, non-empty id that is present, and a defined `null` result
for a null, empty, absent or unknown id; being a total function, it never
throws. -/
theorem getSessionMetrics_spec (st : CollectorState) (sid : String) :
    getSessionMetrics st none = none ∧
    getSessionMetrics st (some "") = none ∧
    (sid ≠ "" →
      getSessionMetrics st (some sid) = mapGet st.sessionMetrics sid) := by
  refine ⟨rfl, by simp [getSessionMetrics], fun h => ?_⟩
  simp [getSessionMetrics, h]

/-- Witness for C9: looking up the session `"s1"` after one tracked view
returns exactly the stored record; looking up an unknown id returns
`null`. -/
theorem getSessionMetrics_spec_witness :
    getSessionMetrics
        (trackPageView emptyCollector "s1" "/a" none none none 0) (some "s1")
      = mapGet (trackPageView emptyCollector "s1" "/a" none none none
          0).sessionMetrics "s1" ∧
    getSessionMetrics
        (trackPageView emptyCollector "s1" "/a" none none none 0)
        (some "nope")
      = mapGet (trackPageView emptyCollector "s1" "/a" none none none
          0).sessionMetrics "nope" :=
  ⟨(getSessionMetrics_spec
      (trackPageView emptyCollector "s1" "/a" none none none 0) "s1").2.2
      (by decide),
   (getSessionMetrics_spec
      (trackPageView emptyCollector "s1" "/a" none none none 0) "nope").2.2
      (by decide)⟩

theorem bool_not_lt (a b : Int) : (!decide (a < b)) = decide (b ≤ a) := by
  by_cases h : a < b
  · simp [h, not_le.mpr h]
  · simp [h, not_lt.mp h]

/-- **C7.** `cleanupOldSessions` retains exactly the sessions whose
`lastActivity` is at least 24 hours before `now` (removing the strictly
older ones) and leaves the page store, the request counter and the error
counter untouched.  In particular a session last active 25 hours ago is
removed and one last active 12 hours ago is retained. -/
theorem cleanupOldSessions_spec :
    (∀ st now,
      (cleanupOldSessions st now).pageMetrics = st.pageMetrics ∧
      (cleanupOldSessions st now).requestCount = st.requestCount ∧
      (cleanupOldSessions st now).errorCount = st.errorCount ∧
      (cleanupOldSessions st now).sessionMetrics
        = st.sessionMetrics.filter
            (fun q => now - 24 * 60 * 60 * 1000 ≤ q.2.lastActivity)) ∧
    mapGet (cleanupOldSessions
        (trackPageView emptyCollector "s1" "/h" none none none 0)
        (25 * 60 * 60 * 1000)).sessionMetrics "s1" = none ∧
    mapGet (cleanupOldSessions
        (trackPageView emptyCollector "s1" "/h" none none none 0)
        (12 * 60 * 60 * 1000)).sessionMetrics "s1"
      = some { sessionId := "s1", userId := none, startTime := 0,
               lastActivity := 0, pageViews := 1, pages := ["/h"],
               referrer := none, userAgent := none } := by
  refine ⟨fun st now => ⟨rfl, rfl, rfl, ?_⟩, by rfl, by rfl⟩
  show List.filter _ st.sessionMetrics = List.filter _ st.sessionMetrics
  exact List.filter_congr
    (fun q _ => bool_not_lt q.2.lastActivity (now - 24 * 60 * 60 * 1000))

/-- Witness for C1: the first view of `/home` from session `s1` raises the
view count from 0 to 1 and creates the session record with the supplied
optional fields. -/
theorem trackPageView_spec_witness :
    viewsAt (trackPageView emptyCollector "s1" "/home" none none none 0)
        "/home"
      = viewsAt emptyCollector "/home" + 1 ∧
    mapGet (trackPageView emptyCollector "s1" "/home" none none none
        0).sessionMetrics "s1"
      = some { sessionId := "s1", userId := none, startTime := 0,
               lastActivity := 0, pageViews := 1, pages := ["/home"],
               referrer := none, userAgent := none } :=
  ⟨(trackPageView_spec emptyCollector "s1" "/home" none none none 0).1,
   (trackPageView_spec emptyCollector "s1" "/home" none none none
      0).2.2.2.2.2.1 (by rfl)⟩

-- Bounce rate (getMetrics, lines 169-186 of the source).

/-- JavaScript `Math.round`: round half toward positive infinity. -/
def jsRound (q : ℚ) : Int := ⌊q + 1 / 2⌋

/-- Number of sessions with `pageViews === 1`. -/
def singlePageSessions (st : CollectorState) : Nat :=
  (st.sessionMetrics.filter (fun p => p.2.pageViews == 1)).length

/-- Total number of sessions (`Map.size`). -/
def totalSessions (st : CollectorState) : Nat := st.sessionMetrics.length

/-- The `bounceRate` field of `getMetrics()`:
`Math.round(bounceRate * 10) / 10` applied to
`(singlePageSessions / totalSessions) * 100` (0 when no sessions). -/
def bounceRate (st : CollectorState) : ℚ :=
  let raw : ℚ :=
    if 0 < totalSessions st then
      ((singlePageSessions st : ℚ) / (totalSessions st : ℚ)) * 100
    else 0
  (jsRound (raw * 10) : ℚ) / 10

/-- Rounding to one decimal place, as the spec phrases it. -/
def roundTo1 (q : ℚ) : ℚ := (jsRound (10 * q) : ℚ) / 10

/-- **C4.** The `bounceRate` of the snapshot equals
`100 × (sessions with pageViews == 1) / (total sessions)` rounded to one
decimal place, and 0 when there are no sessions; in particular it is 50
for two sessions of which exactly one has a single page view. -/
theorem bounceRate_spec :
    (∀ st, bounceRate st =
      if totalSessions st = 0 then 0
      else roundTo1
        (100 * (singlePageSessions st : ℚ) / (totalSessions st : ℚ))) ∧
    bounceRate (trackPageView (trackPageView (trackPageView emptyCollector
        "s1" "/a" none none none 0) "s2" "/a" none none none 1)
        "s2" "/b" none none none 2) = 50 := by
  constructor
  · intro st
    by_cases h : totalSessions st = 0
    · simp [bounceRate, h, jsRound]
      norm_num
    · have hpos : 0 < totalSessions st := Nat.pos_of_ne_zero h
      simp only [bounceRate, roundTo1, hpos, if_pos, if_neg h]
      have harg : (singlePageSessions st : ℚ) / (totalSessions st : ℚ) * 100
            * 10
          = 10 * (100 * (singlePageSessions st : ℚ) / (totalSessions st : ℚ))
        := by ring
      rw [harg]
  · have h1 : singlePageSessions (trackPageView (trackPageView (trackPageView
        emptyCollector "s1" "/a" none none none 0) "s2" "/a" none none none 1)
        "s2" "/b" none none none 2) = 1 := by rfl
    have h2 : totalSessions (trackPageView (trackPageView (trackPageView
        emptyCollector "s1" "/a" none none none 0) "s2" "/a" none none none 1)
        "s2" "/b" none none none 2) = 2 := by rfl
    rw [bounceRate, h1, h2]
    norm_num [jsRound]

-- Top pages (getMetrics, lines 131-151 of the source).

/-- `TopPage` entry (`src/types.ts`) as computed by `getMetrics()`. -/
structure TopPage where
  path : String
  views : Nat
  uniqueVisitors : Nat
  percentage : ℚ
  deriving Repr, DecidableEq

/-- The ordering realised by `sort((a, b) => b.views - a.views)`:
descending by view count. -/
def viewsGe (a b : TopPage) : Prop := b.views ≤ a.views

instance : DecidableRel viewsGe := fun a b => Nat.decLe b.views a.views

instance : IsTotal TopPage viewsGe := ⟨fun a b => le_total b.views a.views⟩

instance : IsTrans TopPage viewsGe := ⟨fun _ _ _ h1 h2 => le_trans h2 h1⟩

/-- Sum of the view counts of all page records (`totalPageViews`). -/
def totalPageViews (st : CollectorState) : Nat :=
  (st.pageMetrics.map (fun p => p.2.views)).sum

/-- The top-five list before percentages are filled in: every page record
mapped to a `TopPage`, stably sorted by view count descending (the result
of the stable ECMAScript `Array.prototype.sort`), first five taken. -/
def topPagesRaw (st : CollectorState) : List TopPage :=
  ((st.pageMetrics.map (fun p =>
      ({ path := p.1, views := p.2.views,
         uniqueVisitors := p.2.uniqueVisitors.length,
         percentage := 0 } : TopPage))).insertionSort viewsGe).take 5

/-- The `topPages` field of `getMetrics()`: each listed entry's percentage
is its share of the sum of ALL page views (0 when that sum is 0). -/
def topPages (st : CollectorState) : List TopPage :=
  (topPagesRaw st).map (fun pg =>
    { pg with
        percentage :=
          if 0 < totalPageViews st then
            (pg.views : ℚ) / (totalPageViews st : ℚ) * 100
          else 0 })

/-- Sum of the percentages of the listed entries. -/
def sumPercentages (l : List TopPage) : ℚ := (l.map TopPage.percentage).sum

theorem sum_views_shares (l : List TopPage) (T : ℚ) :
    (l.map (fun pg => (pg.views : ℚ) / T * 100)).sum
      = ((l.map TopPage.views).sum : ℚ) / T * 100 := by
  induction l with
  | nil => simp
  | cons x xs ih =>
      simp only [List.map_cons, List.sum_cons, ih]
      push_cast
      ring

theorem sumPercentages_topPages_pos (st : CollectorState)
    (h : 0 < totalPageViews st) :
    sumPercentages (topPages st)
      = (((topPagesRaw st).map TopPage.views).sum : ℚ)
          / (totalPageViews st : ℚ) * 100 := by
  unfold sumPercentages topPages
  rw [List.map_map]
  have hmap : (TopPage.percentage ∘ fun pg =>
      { pg with
          percentage :=
            if 0 < totalPageViews st then
              (pg.views : ℚ) / (totalPageViews st : ℚ) * 100
            else 0 })
      = fun pg : TopPage => (pg.views : ℚ) / (totalPageViews st : ℚ) * 100 := by
    funext pg
    simp [h]
  rw [hmap, sum_views_shares]

theorem sumPercentages_topPages_zero (st : CollectorState)
    (h : ¬ 0 < totalPageViews st) : sumPercentages (topPages st) = 0 := by
  unfold sumPercentages topPages
  rw [List.map_map]
  have hmap : (TopPage.percentage ∘ fun pg =>
      { pg with
          percentage :=
            if 0 < totalPageViews st then
              (pg.views : ℚ) / (totalPageViews st : ℚ) * 100
            else 0 })
      = fun _ : TopPage => (0 : ℚ) := by
    funext pg
    simp [h]
  rw [hmap]
  simp

theorem sorted_views_sum_eq (st : CollectorState) :
    (((st.pageMetrics.map (fun p =>
        ({ path := p.1, views := p.2.views,
           uniqueVisitors := p.2.uniqueVisitors.length,
           percentage := 0 } : TopPage))).insertionSort viewsGe).map
        TopPage.views).sum = totalPageViews st := by
  have hperm := (List.perm_insertionSort viewsGe
    (st.pageMetrics.map (fun p =>
      ({ path := p.1, views := p.2.views,
         uniqueVisitors := p.2.uniqueVisitors.length,
         percentage := 0 } : TopPage)))).map TopPage.views
  rw [hperm.sum_eq, List.map_map]
  rfl

theorem topPagesRaw_views_sum_le (st : CollectorState) :
    ((topPagesRaw st).map TopPage.views).sum ≤ totalPageViews st := by
  unfold topPagesRaw
  rw [List.map_take]
  have := List.sum_take_add_sum_drop
    (((st.pageMetrics.map (fun p =>
        ({ path := p.1, views := p.2.views,
           uniqueVisitors := p.2.uniqueVisitors.length,
           percentage := 0 } : TopPage))).insertionSort viewsGe).map
        TopPage.views) 5
  have hsum := sorted_views_sum_eq st
  omega

/-- The `TopPage` images of all page records, before sorting. -/
def pageEntries (st : CollectorState) : List TopPage :=
  st.pageMetrics.map (fun p =>
    ({ path := p.1, views := p.2.views,
       uniqueVisitors := p.2.uniqueVisitors.length,
       percentage := 0 } : TopPage))

theorem topPagesRaw_eq (st : CollectorState) :
    topPagesRaw st = ((pageEntries st).insertionSort viewsGe).take 5 := rfl

theorem sorted_entries_sum_eq (st : CollectorState) :
    (((pageEntries st).insertionSort viewsGe).map TopPage.views).sum
      = totalPageViews st := sorted_views_sum_eq st

/-- **C5 (amended).** `topPages` has length `min 5 (number of pages)`, is
sorted by view count descending, each listed entry's percentage is its
share of the view total over ALL page records (0 when that total is 0),
and the listed percentages sum to at most 100.  Provided every page record
has at least one view — true in every reachable state — the sum equals 100
exactly when the listed pages are the only pages AND at least one page
record exists (on the empty store the sum is 0, not 100). -/
theorem topPages_spec (st : CollectorState) :
    (topPages st).length = min 5 st.pageMetrics.length ∧
    (topPages st).Pairwise (fun a b => b.views ≤ a.views) ∧
    (∀ pg ∈ topPages st, pg.percentage =
      if 0 < totalPageViews st
      then (pg.views : ℚ) / (totalPageViews st : ℚ) * 100 else 0) ∧
    sumPercentages (topPages st) ≤ 100 ∧
    ((∀ p ∈ st.pageMetrics, 1 ≤ p.2.views) →
      (sumPercentages (topPages st) = 100 ↔
        st.pageMetrics.length ≤ 5 ∧ st.pageMetrics ≠ [])) := by
  refine ⟨?_, ?_, ?_, ?_, ?_⟩
  · unfold topPages
    rw [List.length_map, topPagesRaw_eq, List.length_take,
      List.length_insertionSort]
    unfold pageEntries
    rw [List.length_map]
  · have hs := List.sorted_insertionSort viewsGe (pageEntries st)
    have ht : (topPagesRaw st).Pairwise viewsGe := by
      rw [topPagesRaw_eq]
      exact List.Pairwise.sublist (List.take_sublist 5 _) hs
    unfold topPages
    rw [List.pairwise_map]
    exact ht
  · intro pg hpg
    unfold topPages at hpg
    rcases List.mem_map.mp hpg with ⟨pre, hpre, rfl⟩
    by_cases h : 0 < totalPageViews st <;> simp [h]
  · by_cases h : 0 < totalPageViews st
    · rw [sumPercentages_topPages_pos st h]
      have hVT := topPagesRaw_views_sum_le st
      have hTQ : (0 : ℚ) < (totalPageViews st : ℚ) := by exact_mod_cast h
      have hV : ((((topPagesRaw st).map TopPage.views).sum : ℚ))
          ≤ (totalPageViews st : ℚ) := by exact_mod_cast hVT
      have h1 : (((topPagesRaw st).map TopPage.views).sum : ℚ)
          / (totalPageViews st : ℚ) ≤ 1 := (div_le_one hTQ).mpr hV
      have h2 := mul_le_mul_of_nonneg_right h1
        (by norm_num : (0 : ℚ) ≤ 100)
      linarith
    · rw [sumPercentages_topPages_zero st h]
      norm_num
  · intro hv
    constructor
    · intro hsum
      have hT : 0 < totalPageViews st := by
        by_contra h
        rw [sumPercentages_topPages_zero st h] at hsum
        norm_num at hsum
      have hne : st.pageMetrics ≠ [] := by
        intro h
        rw [totalPageViews, h] at hT
        simp at hT
      refine ⟨?_, hne⟩
      by_contra hlen
      push_neg at hlen
      have hTQ : (0 : ℚ) < (totalPageViews st : ℚ) := by exact_mod_cast hT
      rw [sumPercentages_topPages_pos st hT] at hsum
      have hVT : (((topPagesRaw st).map TopPage.views).sum : ℚ)
          = (totalPageViews st : ℚ) := by
        rw [div_mul_eq_mul_div, div_eq_iff (ne_of_gt hTQ)] at hsum
        linarith
      have hVTn : ((topPagesRaw st).map TopPage.views).sum
          = totalPageViews st := by exact_mod_cast hVT
      have hlen' : 5 < ((pageEntries st).insertionSort viewsGe).length := by
        rw [List.length_insertionSort]
        unfold pageEntries
        rw [List.length_map]
        exact hlen
      have hdrop :
          0 < (((pageEntries st).insertionSort viewsGe).drop 5).length := by
        rw [List.length_drop]
        omega
      obtain ⟨y, hy⟩ := List.exists_mem_of_length_pos hdrop
      have hyl : y ∈ (pageEntries st).insertionSort viewsGe :=
        List.mem_of_mem_drop hy
      have hyent : y ∈ pageEntries st :=
        (List.mem_insertionSort viewsGe).mp hyl
      have hyv : 1 ≤ y.views := by
        unfold pageEntries at hyent
        rcases List.mem_map.mp hyent with ⟨p, hp, rfl⟩
        exact hv p hp
      have hysum : y.views
          ∈ ((((pageEntries st).insertionSort viewsGe).drop 5).map
              TopPage.views) := List.mem_map_of_mem _ hy
      have hds : 1 ≤ ((((pageEntries st).insertionSort viewsGe).drop 5).map
          TopPage.views).sum := le_trans hyv (List.le_sum_of_mem hysum)
      have hsplit := List.sum_take_add_sum_drop
        (((pageEntries st).insertionSort viewsGe).map TopPage.views) 5
      have hVdef : ((topPagesRaw st).map TopPage.views).sum
          = ((((pageEntries st).insertionSort viewsGe).map
              TopPage.views).take 5).sum := by
        rw [topPagesRaw_eq, List.map_take]
      have htot := sorted_entries_sum_eq st
      have hds' : 1 ≤ ((((pageEntries st).insertionSort viewsGe).map
          TopPage.views).drop 5).sum := by
        rw [← List.map_drop]
        exact hds
      omega
    · rintro ⟨hlen, hne⟩
      obtain ⟨p, hp⟩ := List.exists_mem_of_ne_nil st.pageMetrics hne
      have hv1 : 1 ≤ p.2.views := hv p hp
      have hT : 0 < totalPageViews st := by
        have hmem : p.2.views ∈ st.pageMetrics.map (fun q => q.2.views) :=
          List.mem_map_of_mem _ hp
        have := List.le_sum_of_mem hmem
        unfold totalPageViews
        omega
      rw [sumPercentages_topPages_pos st hT]
      have hall : topPagesRaw st = (pageEntries st).insertionSort viewsGe := by
        rw [topPagesRaw_eq]
        apply List.take_of_length_le
        rw [List.length_insertionSort]
        unfold pageEntries
        rw [List.length_map]
        exact hlen
      rw [hall, sorted_entries_sum_eq st]
      have hTQ : (0 : ℚ) < (totalPageViews st : ℚ) := by exact_mod_cast hT
      rw [div_self (ne_of_gt hTQ)]
      norm_num

/-- **C5 counterexample.** On the empty collector the listed pages are
(vacuously) all the pages, yet the listed percentages sum to 0, not 100,
so the claim's "equality exactly when the listed pages are the only pages"
fails as stated. -/
theorem topPages_sum_counterexample :
    (topPages emptyCollector).map TopPage.path
      = emptyCollector.pageMetrics.map Prod.fst ∧
    sumPercentages (topPages emptyCollector) ≠ 100 := by
  constructor
  · rfl
  · decide

/-- Witness for C5: with exactly one tracked page the percentage sum is
100, matching the amended equivalence. -/
theorem topPages_spec_witness :
    sumPercentages (topPages (trackPageView emptyCollector "s1" "/a" none
        none none 0)) = 100 ↔
      (trackPageView emptyCollector "s1" "/a" none none none
          0).pageMetrics.length ≤ 5 ∧
        (trackPageView emptyCollector "s1" "/a" none none none
          0).pageMetrics ≠ [] :=
  (topPages_spec (trackPageView emptyCollector "s1" "/a" none none none
    0)).2.2.2.2 (by decide)

-- Referrer categorization (source lines 240-283).

/-- `pat.isPrefixOf l` scanned along `l`: JavaScript
`String.prototype.includes` (substring containment). -/
def containsAux (pat : List Char) : List Char → Bool
  | [] => pat.isEmpty
  | c :: cs => pat.isPrefixOf (c :: cs) || containsAux pat cs

/-- `host.includes(pat)`. -/
def includesSub (host pat : String) : Bool :=
  containsAux pat.toList host.toList

/-- Scheme characters after the leading letter (RFC 3986 / WHATWG). -/
def isSchemeChar (c : Char) : Bool :=
  c.isAlpha || c.isDigit || c = '+' || c = '-' || c = '.'

/-- Consume the rest of the scheme up to `:`; fail if no `:` follows a
well-formed scheme. -/
def dropSchemeRest : List Char → Option (List Char)
  | [] => none
  | c :: cs =>
      if c = ':' then some cs
      else if isSchemeChar c then dropSchemeRest cs
      else none

/-- Take the hostname: characters up to the first `:`, `/`, `?` or `#`. -/
def takeHostname : List Char → List Char
  | [] => []
  | c :: cs =>
      if c = ':' || c = '/' || c = '?' || c = '#' then []
      else c :: takeHostname cs

/-- Modelled from the spec: the platform WHATWG URL parser (`new URL`),
which is not part of this repository, restricted to the hierarchical
`scheme://host...` URLs (without userinfo) that referrers take.  A string
parses when it has an alphabetic scheme followed by `://` and a nonempty
host; the hostname is returned lowercased, as the platform parser
produces it.  Anything else — including a plain word with no colon —
fails to parse. -/
def parseURLHostname (s : String) : Option String :=
  match s.toList with
  | [] => none
  | c :: cs =>
      if c.isAlpha then
        match dropSchemeRest cs with
        | some ('/' :: '/' :: rest) =>
            match takeHostname rest with
            | [] => none
            | host => some (String.mk (host.map Char.toLower))
        | _ => none
      else none

/-- `toLowerCase` as a list map (the platform `String.toLowerCase`). -/
def jsToLower (s : String) : String :=
  String.mk (s.toList.map Char.toLower)

/-- The fixed social-media domain set of the source. -/
def socialDomains : List String :=
  ["facebook.com", "twitter.com", "instagram.com", "linkedin.com",
   "youtube.com", "tiktok.com"]

/-- The fixed search-engine domain set of the source. -/
def searchDomains : List String :=
  ["google.", "bing.com", "yahoo.com", "duckduckgo.com"]

/-- The operator's own domain and localhost. -/
def internalDomains : List String :=
  ["stonewallunderground.com", "localhost"]

/-- `MetricsCollector.categorizeReferrer`: empty/absent or unparsable
input is `Direct`; otherwise the first matching bucket of
social / search / internal wins, `Referral` being the fallback.
Matching is lowercase substring on the hostname. -/
def categorizeReferrer (referrer : Option String) : String :=
  match referrer with
  | none => "Direct"
  | some r =>
      if r = "" then "Direct"
      else
        match parseURLHostname r with
        | none => "Direct"
        | some host =>
            let domain := jsToLower host
            if socialDomains.any (fun d => includesSub domain d) then
              "Social Media"
            else if searchDomains.any (fun d => includesSub domain d) then
              "Search"
            else if internalDomains.any (fun d => includesSub domain d) then
              "Internal"
            else "Referral"

/-- **C6.** `categorizeReferrer` is a pure total function: absent, empty
or unparsable input yields `Direct`; otherwise the social, search and
internal buckets are tried in that order on the lowercased hostname with
`Referral` as fallback; the six sample inputs land in the documented
buckets, and every possible output is one of the five bucket names. -/
theorem categorizeReferrer_spec :
    categorizeReferrer none = "Direct" ∧
    categorizeReferrer (some "") = "Direct" ∧
    (∀ r, r ≠ "" → parseURLHostname r = none →
      categorizeReferrer (some r) = "Direct") ∧
    categorizeReferrer (some "not-a-url") = "Direct" ∧
    categorizeReferrer (some "https://facebook.com/x") = "Social Media" ∧
    categorizeReferrer (some "https://www.google.com/search") = "Search" ∧
    categorizeReferrer (some "http://localhost:5174/") = "Internal" ∧
    categorizeReferrer (some "https://example.com/") = "Referral" ∧
    (∀ r, categorizeReferrer r
      ∈ ["Direct", "Social Media", "Search", "Internal", "Referral"]) := by
  refine ⟨rfl, rfl, ?_, by decide, by decide, by decide, by decide, by decide,
    ?_⟩
  · intro r hr hp
    simp [categorizeReferrer, hr, hp]
  · intro r
    match r with
    | none => simp [categorizeReferrer]
    | some s =>
        simp only [categorizeReferrer]
        by_cases hs : s = ""
        · simp [hs]
        · simp only [hs, if_neg]
          match parseURLHostname s with
          | none => simp
          | some host =>
              simp only []
              split_ifs <;> simp

/-- Witness for C6: the parse-failure clause applied at `not-a-url`. -/
theorem categorizeReferrer_spec_witness :
    categorizeReferrer (some "not-a-url") = "Direct" :=
  categorizeReferrer_spec.2.2.1 "not-a-url" (by decide) (by decide)

-- Persistence (source lines 307-390).

/-- One entry of `page-metrics.json` (`SerializedPageMetrics` in
`src/types.ts`): the visitor set becomes an array, the timestamp a
string. -/
structure SerializedPageMetrics where
  path : String
  views : Nat
  uniqueVisitors : List String
  lastAccessed : String
  deriving Repr, DecidableEq

/-- One entry of `session-metrics.json`: timestamps become strings. -/
structure SerializedSessionMetrics where
  sessionId : String
  userId : Option String
  startTime : String
  lastActivity : String
  pageViews : Nat
  pages : List String
  referrer : Option String
  userAgent : Option String
  deriving Repr, DecidableEq

/-- Portable string form of a timestamp (`JSON.stringify` of a `Date`). -/
def encodeDate (t : Int) : String := toString t

/-- `new Date(string)` on an encoded timestamp. -/
def decodeDate (s : String) : Int := (s.toInt?).getD 0

/-- `MetricsCollector.persistData`: the contents of the two JSON
documents, in store order. -/
def persistData (st : CollectorState) :
    List SerializedPageMetrics × List SerializedSessionMetrics :=
  (st.pageMetrics.map (fun p =>
      { path := p.1, views := p.2.views,
        uniqueVisitors := p.2.uniqueVisitors,
        lastAccessed := encodeDate p.2.lastAccessed }),
   st.sessionMetrics.map (fun p =>
      { sessionId := p.2.sessionId, userId := p.2.userId,
        startTime := encodeDate p.2.startTime,
        lastActivity := encodeDate p.2.lastActivity,
        pageViews := p.2.pageViews, pages := p.2.pages,
        referrer := p.2.referrer, userAgent := p.2.userAgent }))

/-- `MetricsCollector.loadPersistedData` applied to the parsed documents:
every page and session is `Map.set` into the collector, the visitor
array reconstructed into a `Set` and the timestamp strings into dates. -/
def loadPersistedData (st : CollectorState)
    (pages : List SerializedPageMetrics)
    (sessions : List SerializedSessionMetrics) : CollectorState :=
  { st with
      pageMetrics :=
        pages.foldl (fun m pg =>
          mapSet m pg.path
            { path := pg.path, views := pg.views,
              uniqueVisitors := pg.uniqueVisitors.foldl setAdd [],
              lastAccessed := decodeDate pg.lastAccessed }) st.pageMetrics
      sessionMetrics :=
        sessions.foldl (fun m s =>
          mapSet m s.sessionId
            { sessionId := s.sessionId, userId := s.userId,
              startTime := decodeDate s.startTime,
              lastActivity := decodeDate s.lastActivity,
              pageViews := s.pageViews, pages := s.pages,
              referrer := s.referrer,
              userAgent := s.userAgent }) st.sessionMetrics }

/-- Persist the two stores and load them back into an empty collector. -/
def persistThenLoad (st : CollectorState) : CollectorState :=
  loadPersistedData emptyCollector (persistData st).1 (persistData st).2

theorem mapSet_notMem {β : Type} (m : List (String × β)) (k : String) (v : β)
    (h : k ∉ m.map Prod.fst) : mapSet m k v = m ++ [(k, v)] := by
  induction m with
  | nil => rfl
  | cons hd tl ih =>
      rw [List.map_cons, List.mem_cons] at h
      push_neg at h
      have hne : ¬ hd.1 = k := fun hh => h.1 hh.symm
      show (if hd.1 = k then (k, v) :: tl else (hd.1, hd.2) :: mapSet tl k v)
        = hd :: tl ++ [(k, v)]
      rw [if_neg hne, ih h.2]
      rfl

theorem foldl_mapSet_eq_append {γ β : Type} (l : List γ) (key : γ → String)
    (val : γ → β) (m : List (String × β)) (hn : (l.map key).Nodup)
    (hd : ∀ k ∈ l.map key, k ∉ m.map Prod.fst) :
    l.foldl (fun acc x => mapSet acc (key x) (val x)) m
      = m ++ l.map (fun x => (key x, val x)) := by
  induction l generalizing m with
  | nil => simp
  | cons x xs ih =>
      rw [List.map_cons, List.nodup_cons] at hn
      rw [List.foldl_cons,
        mapSet_notMem m (key x) (val x) (hd (key x) (by simp))]
      rw [ih (m ++ [(key x, val x)]) hn.2 ?_]
      · simp
      · intro k hk
        rw [List.map_append, List.mem_append]
        push_neg
        constructor
        · exact hd k (by simp [hk])
        · intro hmem
          simp at hmem
          exact hn.1 (hmem ▸ hk)

theorem mapGet_map_entry {β γ : Type} (m : List (String × β))
    (g : String × β → γ) (q : String) :
    mapGet (List.map (fun p => (p.1, g p)) m) q
      = Option.map g (List.find? (fun p => p.1 == q) m) := by
  induction m with
  | nil => rfl
  | cons hd tl ih =>
      rw [List.map_cons, mapGet_cons, List.find?_cons]
      by_cases h : hd.1 = q
      · simp [h]
      · have hb : (hd.1 == q) = false := beq_eq_false_iff_ne.mpr h
        simp only [hb]
        simpa [h] using ih

theorem mapGet_eq_find {β : Type} (m : List (String × β)) (q : String) :
    mapGet m q = Option.map Prod.snd (m.find? (fun p => p.1 == q)) := by
  cases hf : m.find? (fun p => p.1 == q) <;> simp [mapGet, hf]

theorem persistThenLoad_pageMetrics (st : CollectorState)
    (hpk : (st.pageMetrics.map Prod.fst).Nodup) :
    (persistThenLoad st).pageMetrics
      = st.pageMetrics.map (fun p =>
          (p.1, ({ path := p.1, views := p.2.views,
                   uniqueVisitors := p.2.uniqueVisitors.foldl setAdd [],
                   lastAccessed := decodeDate (encodeDate p.2.lastAccessed) }
                 : PageMetrics))) := by
  have hkeys : ((persistData st).1.map (fun pg => pg.path)).Nodup := by
    have heq : (persistData st).1.map (fun pg => pg.path)
        = st.pageMetrics.map Prod.fst := by
      show (st.pageMetrics.map _).map _ = _
      rw [List.map_map]
      rfl
    rw [heq]
    exact hpk
  have hfold := foldl_mapSet_eq_append (persistData st).1
    (fun pg => pg.path)
    (fun pg => ({ path := pg.path, views := pg.views,
                  uniqueVisitors := pg.uniqueVisitors.foldl setAdd [],
                  lastAccessed := decodeDate pg.lastAccessed }
                : PageMetrics))
    [] hkeys (by simp)
  show (persistData st).1.foldl _ [] = _
  rw [hfold]
  show (st.pageMetrics.map _).map _ = _
  rw [List.map_map]
  rfl

theorem persistThenLoad_sessionMetrics (st : CollectorState)
    (hsk : (st.sessionMetrics.map Prod.fst).Nodup)
    (hsid : ∀ p ∈ st.sessionMetrics, p.2.sessionId = p.1) :
    (persistThenLoad st).sessionMetrics
      = st.sessionMetrics.map (fun p =>
          (p.1, ({ sessionId := p.2.sessionId, userId := p.2.userId,
                   startTime := decodeDate (encodeDate p.2.startTime),
                   lastActivity := decodeDate (encodeDate p.2.lastActivity),
                   pageViews := p.2.pageViews, pages := p.2.pages,
                   referrer := p.2.referrer, userAgent := p.2.userAgent }
                 : SessionMetrics))) := by
  have hkeys : ((persistData st).2.map (fun s => s.sessionId)).Nodup := by
    have heq : (persistData st).2.map (fun s => s.sessionId)
        = st.sessionMetrics.map Prod.fst := by
      show (st.sessionMetrics.map _).map _ = _
      rw [List.map_map]
      exact List.map_congr_left hsid
    rw [heq]
    exact hsk
  have hfold := foldl_mapSet_eq_append (persistData st).2
    (fun s => s.sessionId)
    (fun s => ({ sessionId := s.sessionId, userId := s.userId,
                 startTime := decodeDate s.startTime,
                 lastActivity := decodeDate s.lastActivity,
                 pageViews := s.pageViews, pages := s.pages,
                 referrer := s.referrer, userAgent := s.userAgent }
               : SessionMetrics))
    [] hkeys (by simp)
  show (persistData st).2.foldl _ [] = _
  rw [hfold]
  show (st.sessionMetrics.map _).map _ = _
  rw [List.map_map]
  apply List.map_congr_left
  intro p hp
  exact congrArg₂ Prod.mk (hsid p hp) rfl

/-- **C8.** Persisting the two stores (visitor set to array, timestamps
to strings) and loading them into an empty collector reproduces the page
and session stores: identical keys, view counts, page-view counters and
pages lists, and the same distinct-visitor membership; reconstruction of
the visitor set is insensitive to the serialization order of the array. -/
theorem persist_load_roundtrip (st : CollectorState)
    (hpk : (st.pageMetrics.map Prod.fst).Nodup)
    (hsk : (st.sessionMetrics.map Prod.fst).Nodup)
    (hsid : ∀ p ∈ st.sessionMetrics, p.2.sessionId = p.1) :
    (persistThenLoad st).pageMetrics.map Prod.fst
        = st.pageMetrics.map Prod.fst ∧
    (∀ q, viewsAt (persistThenLoad st) q = viewsAt st q) ∧
    (∀ q v, v ∈ visitorsAt (persistThenLoad st) q ↔ v ∈ visitorsAt st q) ∧
    (persistThenLoad st).sessionMetrics.map Prod.fst
        = st.sessionMetrics.map Prod.fst ∧
    (∀ sid, sessionViewsAt (persistThenLoad st) sid
        = sessionViewsAt st sid) ∧
    (∀ sid, sessionPagesAt (persistThenLoad st) sid
        = sessionPagesAt st sid) ∧
    (∀ vs vs' : List String, (∀ x, x ∈ vs ↔ x ∈ vs') →
      ∀ x, x ∈ vs.foldl setAdd [] ↔ x ∈ vs'.foldl setAdd []) := by
  refine ⟨?_, ?_, ?_, ?_, ?_, ?_, ?_⟩
  · rw [persistThenLoad_pageMetrics st hpk, List.map_map]
    rfl
  · intro q
    unfold viewsAt
    rw [persistThenLoad_pageMetrics st hpk, mapGet_map_entry,
      mapGet_eq_find]
    cases st.pageMetrics.find? (fun p => p.1 == q) <;> simp
  · intro q v
    unfold visitorsAt
    rw [persistThenLoad_pageMetrics st hpk, mapGet_map_entry,
      mapGet_eq_find]
    cases st.pageMetrics.find? (fun p => p.1 == q) <;>
      simp [mem_foldl_setAdd]
  · rw [persistThenLoad_sessionMetrics st hsk hsid, List.map_map]
    rfl
  · intro sid
    unfold sessionViewsAt
    rw [persistThenLoad_sessionMetrics st hsk hsid, mapGet_map_entry,
      mapGet_eq_find]
    cases st.sessionMetrics.find? (fun p => p.1 == sid) <;> simp
  · intro sid
    unfold sessionPagesAt
    rw [persistThenLoad_sessionMetrics st hsk hsid, mapGet_map_entry,
      mapGet_eq_find]
    cases st.sessionMetrics.find? (fun p => p.1 == sid) <;> simp
  · intro vs vs' h x
    rw [mem_foldl_setAdd, mem_foldl_setAdd]
    simp [h x]


/-- A store with one page (two unique visitors) and one session, used to
witness the persistence round-trip. -/
def sampleStore : CollectorState where
  pageMetrics :=
    [("/p", { path := "/p", views := 2, uniqueVisitors := ["s1", "s2"],
              lastAccessed := 7 })]
  sessionMetrics :=
    [("s1", { sessionId := "s1", userId := none, startTime := 0,
              lastActivity := 1, pageViews := 2, pages := ["/p"],
              referrer := none, userAgent := none })]
  requestCount := 2
  errorCount := 0

/-- Witness for C8: the sample store round-trips with the same view
count and visitor membership. -/
theorem persist_load_roundtrip_witness :
    viewsAt (persistThenLoad sampleStore) "/p" = viewsAt sampleStore "/p" ∧
    ("s2" ∈ visitorsAt (persistThenLoad sampleStore) "/p"
      ↔ "s2" ∈ visitorsAt sampleStore "/p") :=
  ⟨(persist_load_roundtrip sampleStore (by decide) (by decide)
      (by decide)).2.1 "/p",
   (persist_load_roundtrip sampleStore (by decide) (by decide)
      (by decide)).2.2.1 "/p" "s2"⟩

-- Event stream manager (src/event-stream.ts).

/-- A `RealtimeEvent` (`src/types.ts`): type tag, epoch-ms timestamp,
optional JSON payload. -/
structure RealtimeEvent where
  type : String
  timestamp : Int
  data : Option String
  deriving Repr, DecidableEq

/-- `JSON.stringify(event)` for the envelope. -/
def encodeEvent (e : RealtimeEvent) : String :=
  "\x7b\"type\":\"" ++ e.type ++ "\",\"timestamp\":" ++ toString e.timestamp
    ++ (match e.data with
        | some d => ",\"data\":" ++ d
        | none => "")
    ++ "\x7d"

/-- The SSE wire frame `data: <json>\n\n` built once per broadcast. -/
def sseFrame (e : RealtimeEvent) : String :=
  "data: " ++ encodeEvent e ++ "\n\n"

/-- An observer's output channel (`ReadableStreamDefaultController`): the
frames it has received, plus a flag modelling a controller whose
`enqueue` throws. -/
structure Channel where
  buffer : List String
  failing : Bool
  deriving Repr, DecidableEq

/-- The `EventStreamManager` registry of connected observers. -/
structure StreamState where
  streams : List (String × Channel)
  deriving Repr, DecidableEq

/-- `EventStreamManager.addClient`: register or replace a channel. -/
def addClient (st : StreamState) (clientId : String) (ch : Channel) :
    StreamState :=
  ⟨mapSet st.streams clientId ch⟩

/-- `EventStreamManager.removeClient`: unregister an id (no-op if
absent). -/
def removeClient (st : StreamState) (clientId : String) : StreamState :=
  ⟨st.streams.filter (fun p => !(p.1 == clientId))⟩

/-- `EventStreamManager.getClientCount`. -/
def getClientCount (st : StreamState) : Nat := st.streams.length

/-- `EventStreamManager.broadcast`: serialize the event once, then write
the frame to every registered observer in registry order; a throwing
write logs that observer's id and removes it from the registry.  Returns
the new registry and the logged failing ids. -/
def broadcast (st : StreamState) (event : RealtimeEvent) :
    StreamState × List String :=
  let eventData := sseFrame event
  let result := st.streams.foldl
    (fun acc entry =>
      if entry.2.failing then
        (acc.1, acc.2 ++ [entry.1])
      else
        (acc.1 ++ [(entry.1,
          { entry.2 with buffer := entry.2.buffer ++ [eventData] })],
         acc.2))
    ([], [])
  (⟨result.1⟩, result.2)

theorem broadcast_foldl (l : List (String × Channel)) (d : String)
    (acc1 : List (String × Channel)) (acc2 : List String) :
    l.foldl
      (fun acc entry =>
        if entry.2.failing then
          (acc.1, acc.2 ++ [entry.1])
        else
          (acc.1 ++ [(entry.1,
            { entry.2 with buffer := entry.2.buffer ++ [d] })],
           acc.2))
      (acc1, acc2)
      = (acc1 ++ l.filterMap (fun en =>
            if en.2.failing then none
            else some (en.1,
              { en.2 with buffer := en.2.buffer ++ [d] })),
         acc2 ++ (l.filter (fun en => en.2.failing)).map Prod.fst) := by
  induction l generalizing acc1 acc2 with
  | nil => simp
  | cons x xs ih =>
      by_cases hx : x.2.failing = true
      · rw [List.foldl_cons]
        simp only [hx, if_pos, ite_true, List.filterMap_cons,
          List.filter_cons]
        rw [ih]
        simp
      · rw [List.foldl_cons]
        simp only [hx, ite_false, List.filterMap_cons, List.filter_cons]
        rw [ih]
        simp [hx]

/-- **C2.** `broadcast` serializes the event into one frame and attempts
a write to every observer registered at call time: afterwards the
registry holds exactly the non-failing observers (in order), each with
that one frame appended to its channel, while exactly the failing
observers are removed and logged by id; with zero registered observers
the call completes leaving an empty registry and no failure log; one
failing plus one healthy observer leaves exactly the healthy one
registered and delivered-to. -/
theorem broadcast_spec (st : StreamState) (e : RealtimeEvent) :
    (broadcast st e).1.streams
      = st.streams.filterMap (fun en =>
          if en.2.failing then none
          else some (en.1,
            { en.2 with buffer := en.2.buffer ++ [sseFrame e] })) ∧
    (broadcast st e).2
      = (st.streams.filter (fun en => en.2.failing)).map Prod.fst ∧
    broadcast ⟨[]⟩ e = (⟨[]⟩, []) ∧
    broadcast ⟨[("bad", ⟨[], true⟩), ("good", ⟨[], false⟩)]⟩
        ⟨"metrics", 0, none⟩
      = (⟨[("good", ⟨[sseFrame ⟨"metrics", 0, none⟩], false⟩)]⟩,
         ["bad"]) := by
  refine ⟨?_, ?_, rfl, rfl⟩
  · show (⟨(st.streams.foldl _ ([], [])).1⟩ : StreamState).streams = _
    rw [broadcast_foldl st.streams (sseFrame e) [] []]
    simp
  · show (st.streams.foldl _ ([], [])).2 = _
    rw [broadcast_foldl st.streams (sseFrame e) [] []]
    simp
